import Mathlib

/-!
Verification development for the beli-buzz repository.

The client code (frontend App component, `RestaurantCard`) is embedded
shallowly below: TypeScript numbers become `ℚ`, nullable fields become
`Option`, and the fetch effect becomes an explicit state transition fed
an `Except` result.  The backend pipeline (buzz scoring, identity
resolution, geocode cache, snapshot publisher) is not present in the
sources; those parts are modelled from the specification and are marked
as such in their doc comments.
-/

/-- The client `Location` type: `{lat: number, lng: number, address?: string}`. -/
structure Location where
  lat : ℚ
  lng : ℚ
  address : Option String
deriving DecidableEq, Repr

/-- The client `Restaurant` type from the App component, field for field:
`{id, name, buzz_score, sentiment, mentions, summary, location: Location | null,
sources?: string[]}`.  Note `sources` is declared optional there. -/
structure Restaurant where
  id : String
  name : String
  buzz_score : ℚ
  sentiment : ℚ
  mentions : ℕ
  summary : String
  location : Option Location
  sources : Option (List String)
deriving DecidableEq, Repr

/-- The client `DataResponse` type: `{date: string, restaurants: Restaurant[]}`. -/
structure DataResponse where
  date : String
  restaurants : List Restaurant
deriving DecidableEq, Repr

/-- Comparator relation of `sort((a, b) => b.buzz_score - a.buzz_score)`:
`a` may precede `b` when its score is at least `b`'s. -/
def buzzGe (a b : Restaurant) : Prop := b.buzz_score ≤ a.buzz_score

instance : DecidableRel buzzGe := fun a b =>
  inferInstanceAs (Decidable (b.buzz_score ≤ a.buzz_score))

instance : IsTotal Restaurant buzzGe := ⟨fun a b => le_total b.buzz_score a.buzz_score⟩

instance : IsTrans Restaurant buzzGe := ⟨fun _ _ _ h₁ h₂ => le_trans h₂ h₁⟩

/-- `[...response.data.restaurants].sort((a, b) => b.buzz_score - a.buzz_score)`:
the fetched list sorted by `buzz_score` descending. -/
def sortByBuzzDesc (l : List Restaurant) : List Restaurant :=
  List.insertionSort buzzGe l

/-- The Toronto fallback map centre `{lat: 43.6532, lng: -79.3832}`. -/
def FALLBACK_CENTER : Location := ⟨(43.6532 : ℚ), (-79.3832 : ℚ), none⟩

/-- The component state held in the App's `useState` hooks. -/
structure AppState where
  restaurants : List Restaurant
  selectedId : Option String
  lastRun : Option String
  isLoading : Bool
  error : Option String
deriving DecidableEq, Repr

/-- The error message set in the `catch` branch of `fetchData`. -/
def fetchErrorMessage : String :=
  "Unable to fetch the latest buzz. Showing the last cached version."

/-- The `fetchData` routine as a state transition.  The `axios.get` outcome is
passed in as an `Except`; the `try` branch sorts, stores the list, date and
first id and clears the error, the `catch` branch only sets the error
message, and the `finally` branch ends with `isLoading = false` in both
cases.  Totality of this function is the embedding of the fact that no
exception escapes `fetchData`. -/
def fetchData (st : AppState) (result : Except Unit DataResponse) : AppState :=
  match result with
  | Except.ok resp =>
      let sorted := sortByBuzzDesc resp.restaurants
      { restaurants := sorted
        lastRun := some resp.date
        selectedId := sorted.head?.map Restaurant.id
        isLoading := false
        error := none }
  | Except.error _ =>
      { st with error := some fetchErrorMessage, isLoading := false }

/-- `restaurants.find((r) => r.id === selectedId) ?? restaurants[0] ?? null`:
the derived selected restaurant. -/
def selectedOf (rs : List Restaurant) (sid : Option String) : Option Restaurant :=
  (rs.find? (fun r => decide (sid = some r.id))).orElse (fun _ => rs.head?)

/-- The marker list: the map renders an `AdvancedMarker` exactly for the
restaurants whose `location` is non-null. -/
def markers (rs : List Restaurant) : List Restaurant :=
  rs.filter (fun r => r.location.isSome)

/-- `center={selected?.location ?? FALLBACK_CENTER}`: the map centre. -/
def mapCenter (sel : Option Restaurant) : Location :=
  (sel.bind Restaurant.location).getD FALLBACK_CENTER

/-! ## The artifact contract versus the client types (C1)

The published-artifact contract of spec §3/§6 and the client's declared and
read fields are both reflected as explicit field-signature tables, so the
"exact match" claim becomes a decidable comparison. -/

/-- Field types occurring in the snapshot contract and the client types. -/
inductive FieldTy where
  | str
  | num
  | strList
  | locOrNull
  | recordList
deriving DecidableEq, Repr

/-- A field signature: name, type, and whether the field is required
(`required = false` means declared optional, TypeScript `?`). -/
structure FieldSig where
  fname : String
  ty : FieldTy
  required : Bool
deriving DecidableEq, Repr

/-- The client's top-level `DataResponse` type, field for field. -/
def clientTopFields : List FieldSig :=
  [⟨"date", FieldTy.str, true⟩, ⟨"restaurants", FieldTy.recordList, true⟩]

/-- The contract's top-level snapshot object `{date: string, restaurants:
[BuzzRecord]}` of spec §6, as field signatures (spec wording). -/
def contractTopFields : List FieldSig :=
  [⟨"date", FieldTy.str, true⟩, ⟨"restaurants", FieldTy.recordList, true⟩]

/-- The client's `Restaurant` type declaration, field for field; `location:
Location | null` is a required nullable field, `sources?: string[]` is
optional. -/
def clientRestaurantFields : List FieldSig :=
  [⟨"id", FieldTy.str, true⟩,
   ⟨"name", FieldTy.str, true⟩,
   ⟨"buzz_score", FieldTy.num, true⟩,
   ⟨"sentiment", FieldTy.num, true⟩,
   ⟨"mentions", FieldTy.num, true⟩,
   ⟨"summary", FieldTy.str, true⟩,
   ⟨"location", FieldTy.locOrNull, true⟩,
   ⟨"sources", FieldTy.strList, false⟩]

/-- The published `BuzzRecord` of spec §3/§6 (spec wording): all eight fields
required, `location` nullable, `sources` a required string list. -/
def contractBuzzRecordFields : List FieldSig :=
  [⟨"id", FieldTy.str, true⟩,
   ⟨"name", FieldTy.str, true⟩,
   ⟨"buzz_score", FieldTy.num, true⟩,
   ⟨"sentiment", FieldTy.num, true⟩,
   ⟨"mentions", FieldTy.num, true⟩,
   ⟨"summary", FieldTy.str, true⟩,
   ⟨"location", FieldTy.locOrNull, true⟩,
   ⟨"sources", FieldTy.strList, true⟩]

/-- Every restaurant field name the client code reads: the App component
reads the eight contract fields, and `RestaurantCard` additionally reads
`is_new`, `cuisine_type`, `price_range`, `user_likes` and `user_saves`. -/
def clientReadFieldNames : List String :=
  ["id", "name", "buzz_score", "sentiment", "mentions", "summary",
   "location", "sources",
   "is_new", "cuisine_type", "price_range", "user_likes", "user_saves"]

/-- The field names of the published `BuzzRecord` contract. -/
def contractFieldNames : List String :=
  contractBuzzRecordFields.map FieldSig.fname

/-- Claim C1 as stated: the top-level types match, the client's record type
equals the contract signature exactly, and the client reads no field
outside the contract. -/
def clientMatchesContract : Prop :=
  clientTopFields = contractTopFields ∧
  clientRestaurantFields = contractBuzzRecordFields ∧
  ∀ n ∈ clientReadFieldNames, n ∈ contractFieldNames

instance : Decidable clientMatchesContract := by
  unfold clientMatchesContract; infer_instance

/-! ## Spec-modelled backend: buzz score, identity resolver, geocode cache,
publisher.  The backend job is not among the repository sources; these
definitions follow the specification's words. -/

/-- Modelled from the spec: the buzz-score formula of §4.5 (the backend
aggregator is not under the sources).  The spec's example formula
`mentions * (sentiment / 10)` is used, a monotonic combination of mention
count and average sentiment. -/
def buzz_score_fn (mentions : ℕ) (sentiment : ℚ) : ℚ :=
  (mentions : ℚ) * (sentiment / 10)

/-- Lower-cases a character, keeps alphanumerics, and treats everything else
as stripped punctuation; the tokenizer below splits on whitespace. -/
def normalizedTokensAux : List Char → List Char → List (List Char)
  | [], acc => if acc.isEmpty then [] else [acc.reverse]
  | c :: rest, acc =>
    if c.isWhitespace then
      if acc.isEmpty then normalizedTokensAux rest []
      else acc.reverse :: normalizedTokensAux rest []
    else if c.isAlphanum then normalizedTokensAux rest (c.toLower :: acc)
    else normalizedTokensAux rest acc

/-- Modelled from the spec: canonicalization of §4.3 — normalize case, strip
punctuation, collapse whitespace.  The normalized form is kept as its
word-token list, so equality of normalized forms is token-list equality. -/
def normalizedTokens (name : List Char) : List (List Char) :=
  normalizedTokensAux name []

/-- Length of a normalized form: total number of letters over its tokens. -/
def normLen (ts : List (List Char)) : ℕ :=
  (ts.map List.length).sum

/-- Whether `sub` is an initial segment of `big`, token by token. -/
def startsWithSeq : List (List Char) → List (List Char) → Bool
  | [], _ => true
  | _ :: _, [] => false
  | a :: as, b :: bs => decide (a = b) && startsWithSeq as bs

/-- Whether `sub` occurs as a contiguous run of whole tokens inside `big`:
the word-level substring test (spec §8 requires that `"Alo"` matches inside
`"ALO Restaurant"` but not inside `"Alobar"`, so the substring policy is at
word granularity under normalization). -/
def containsSeq (sub : List (List Char)) : List (List Char) → Bool
  | [] => startsWithSeq sub []
  | b :: bs => startsWithSeq sub (b :: bs) || containsSeq sub bs

/-- Modelled from the spec: the minimum normalized length for a
substring-based merge (§4.3's threshold; a concrete constant is the
implementer's choice per §9, and 3 admits the §8 `"Alo"` example). -/
def minSubLen : ℕ := 3

/-- Modelled from the spec: two name guesses denote the same identity when
their normalized forms are equal, or one is a word-level substring of the
other and the shorter one reaches the length threshold (§4.3). -/
def matchesB (a b : List Char) : Bool :=
  decide (normalizedTokens a = normalizedTokens b) ||
    (decide (minSubLen ≤ normLen (normalizedTokens a)) &&
      containsSeq (normalizedTokens a) (normalizedTokens b)) ||
    (decide (minSubLen ≤ normLen (normalizedTokens b)) &&
      containsSeq (normalizedTokens b) (normalizedTokens a))

/-- Modelled from the spec: one resolver step.  A name guess joins the
matching group — among several matching canonicals the longest existing
canonical form is preferred (§4.3's tie-break) — or founds a new group
with itself as canonical. -/
def bestCand (c : List Char × List (List Char))
    (cs : List (List Char × List (List Char))) : List Char × List (List Char) :=
  cs.foldl
    (fun acc g =>
      if normLen (normalizedTokens acc.fst) < normLen (normalizedTokens g.fst)
      then g else acc) c

/-- Modelled from the spec: one resolver step (continued) — the matching
group found by `bestCand` receives the new name guess, or the guess founds
a new group with itself as canonical. -/
def addName (groups : List (List Char × List (List Char))) (n : List Char) :
    List (List Char × List (List Char)) :=
  match groups.filter (fun g => matchesB n g.fst) with
  | [] => groups ++ [(n, [n])]
  | c :: cs =>
    groups.map (fun g =>
      if g.fst = (bestCand c cs).fst then (g.fst, g.snd ++ [n]) else g)

/-- Modelled from the spec: `resolve` of §4.3, folding the mentions' name
guesses into a mapping canonical name ↦ grouped name guesses. -/
def resolve (ns : List (List Char)) : List (List Char × List (List Char)) :=
  ns.foldl addName []

/-- The canonical names of a resolver result. -/
def canonicals (groups : List (List Char × List (List Char))) : List (List Char) :=
  groups.map Prod.fst

/-- A geocode cache: canonical name ↦ cached location, where a cached `none`
records a failed lookup (spec §3's `GeocodeCacheEntry`). -/
def GeoCache : Type := List (String × Option Location)

/-- Cache lookup by canonical name. -/
def cacheLookup (cache : GeoCache) (nm : String) : Option (Option Location) :=
  (cache.find? (fun e => decide (e.fst = nm))).map Prod.snd

/-- Modelled from the spec: `geocode` of §4.4 (the backend geocoder is not
under the sources).  Check the persistent cache first; on a hit return the
cached value — a cached null included — with no external call; on a miss
call the provider once and store the result (success or null) keyed by the
canonical name.  The third component counts external provider calls made
by this invocation. -/
def geocode (cache : GeoCache) (provider : String → Option Location)
    (nm : String) : Option Location × GeoCache × ℕ :=
  match cacheLookup cache nm with
  | some v => (v, cache, 0)
  | none => ((provider nm), (nm, provider nm) :: cache, 1)

/-- A run snapshot: the serialized artifact of spec §3 (`date` plus the
aggregated records). -/
structure Snapshot where
  date : String
  restaurants : List Restaurant
deriving DecidableEq, Repr

/-- The publish destination: the live key readers fetch, plus a temporary
key used during publication.  Readers only ever observe `live`. -/
structure Store where
  live : Option Snapshot
  temp : Option Snapshot
deriving DecidableEq, Repr

/-- Modelled from the spec: the first half of §4.6's atomic write — the whole
serialized artifact is written to the temporary key. -/
def writeTempStep (st : Store) (s : Snapshot) : Store :=
  { st with temp := some s }

/-- Modelled from the spec: the second half of §4.6's atomic write — one
rename/replace-style operation making the temporary content live. -/
def finalizeStep (st : Store) : Store :=
  { st with live := st.temp }

/-- Modelled from the spec: publication (§4.6, §7).  When the destination
write succeeds, the artifact is written to the temporary key and finalized
in one replace; when it fails, the run is fatal (`false`) and the store is
left as it was — the previous snapshot remains live. -/
def publish (st : Store) (s : Snapshot) (writeOk : Bool) : Store × Bool :=
  if writeOk then (finalizeStep (writeTempStep st s), true) else (st, false)

/-- The sequence of live-key values a reader can observe during a
publication: before, between the two steps, and after (on failure the live
key never changes). -/
def publishObservedLive (st : Store) (s : Snapshot) (writeOk : Bool) :
    List (Option Snapshot) :=
  if writeOk then
    [st.live, (writeTempStep st s).live, (finalizeStep (writeTempStep st s)).live]
  else [st.live, st.live]

/-! ## Theorems -/

/-- C1 (counterexample): the claim as stated is false — the client's types
and reads do not match the published contract exactly: the client declares
`sources` optional while the contract requires it, and `RestaurantCard`
reads fields outside the contract. -/
theorem C1_contract_counterexample : ¬ clientMatchesContract := by decide

/-- C1 (amended): the top-level response type matches the contract; the
client's record fields match the contract in name and type, with `sources`
the only field whose requiredness differs (optional in the client, required
in the contract); and the fields the client reads beyond the contract are
exactly `is_new`, `cuisine_type`, `price_range`, `user_likes`,
`user_saves`. -/
theorem C1_contract_amended :
    clientTopFields = contractTopFields ∧
    clientRestaurantFields.map (fun f => (f.fname, f.ty)) =
      contractBuzzRecordFields.map (fun f => (f.fname, f.ty)) ∧
    (clientRestaurantFields.filter (fun f => !f.required)).map FieldSig.fname
      = ["sources"] ∧
    (contractBuzzRecordFields.filter (fun f => !f.required)) = [] ∧
    clientReadFieldNames.filter (fun n => !(contractFieldNames.contains n)) =
      ["is_new", "cuisine_type", "price_range", "user_likes", "user_saves"] := by
  decide

/-- C2: after a successful fetch the client's displayed list is a
permutation of `response.data.restaurants` that is sorted by `buzz_score`
in descending order (every element's score is at least each later
element's). -/
theorem C2_client_sorts_descending (st : AppState) (resp : DataResponse) :
    (fetchData st (Except.ok resp)).restaurants.Perm resp.restaurants ∧
    (fetchData st (Except.ok resp)).restaurants.Sorted buzzGe := by
  exact ⟨List.perm_insertionSort buzzGe resp.restaurants,
    List.sorted_insertionSort buzzGe resp.restaurants⟩

/-- C3: a record with null `location` is still listed after sorting (never
dropped), yields no map marker, and when selected the map centre is the
fixed Toronto fallback coordinate; none of this is an error (all involved
functions are total). -/
theorem C3_null_location_tolerated (rs : List Restaurant) (r : Restaurant)
    (hmem : r ∈ rs) (hloc : r.location = none) :
    r ∈ sortByBuzzDesc rs ∧ r ∉ markers rs ∧
      mapCenter (some r) = FALLBACK_CENTER := by
  refine ⟨((List.perm_insertionSort buzzGe rs).mem_iff).mpr hmem, ?_, ?_⟩
  · simp [markers, List.mem_filter, hloc]
  · simp [mapCenter, hloc]

/-- Concrete restaurant with a null location, for the C3 witness. -/
def rNullLoc : Restaurant :=
  ⟨"alo", "Alo", 5, 8, 2, "tasting menu praise", none, none⟩

/-- Witness for C3 at a concrete one-element list. -/
theorem C3_witness :
    rNullLoc ∈ sortByBuzzDesc [rNullLoc] ∧ rNullLoc ∉ markers [rNullLoc] ∧
      mapCenter (some rNullLoc) = FALLBACK_CENTER :=
  C3_null_location_tolerated [rNullLoc] rNullLoc (List.mem_singleton.mpr rfl) rfl

/-- C4: the (spec-modelled) buzz score is monotone in mention count at any
fixed nonnegative sentiment, monotone in sentiment at any fixed mention
count, and a deterministic function of its two inputs. -/
theorem C4_buzz_score_monotone (m₁ m₂ m : ℕ) (s s₁ s₂ : ℚ)
    (hs : 0 ≤ s) (hm : m₁ ≤ m₂) (hs12 : s₁ ≤ s₂) :
    buzz_score_fn m₁ s ≤ buzz_score_fn m₂ s ∧
    buzz_score_fn m s₁ ≤ buzz_score_fn m s₂ ∧
    ∀ m' s', m = m' → s₁ = s' → buzz_score_fn m s₁ = buzz_score_fn m' s' := by
  refine ⟨?_, ?_, ?_⟩
  · have hc : (m₁ : ℚ) ≤ (m₂ : ℚ) := by exact_mod_cast hm
    exact mul_le_mul_of_nonneg_right hc (by positivity)
  · have hd : s₁ / 10 ≤ s₂ / 10 := by linarith
    exact mul_le_mul_of_nonneg_left hd (Nat.cast_nonneg m)
  · rintro m' s' rfl rfl; rfl

/-- Witness for C4 at the spec's §8 instances: `score(mentions=5) ≥
score(mentions=3)` at sentiment 7, and `score(sentiment=9) ≥
score(sentiment=5)` at 4 mentions. -/
theorem C4_witness :
    buzz_score_fn 3 7 ≤ buzz_score_fn 5 7 ∧
    buzz_score_fn 4 5 ≤ buzz_score_fn 4 9 ∧
    ∀ m' s', 4 = m' → (5 : ℚ) = s' → buzz_score_fn 4 5 = buzz_score_fn m' s' :=
  C4_buzz_score_monotone 3 5 4 7 5 9 (by norm_num) (by norm_num) (by norm_num)

/-- `fetchData` on success stores the sorted list (definitional helper). -/
theorem fetchData_ok_restaurants (st : AppState) (resp : DataResponse) :
    (fetchData st (Except.ok resp)).restaurants = sortByBuzzDesc resp.restaurants :=
  rfl

/-- `fetchData` on success selects the first sorted id (definitional
helper). -/
theorem fetchData_ok_selectedId (st : AppState) (resp : DataResponse) :
    (fetchData st (Except.ok resp)).selectedId
      = (sortByBuzzDesc resp.restaurants).head?.map Restaurant.id :=
  rfl

/-- C9: the derived selection is non-null exactly when the list is
non-empty; when `selectedId` matches no id it falls back to the first
element; and immediately after a successful fetch of a non-empty list the
selection is the head of the descending-sorted list, which has the
maximal `buzz_score`. -/
theorem C9_selection_invariant (rs : List Restaurant) (sid : Option String)
    (st : AppState) (resp : DataResponse) :
    (rs ≠ [] → (selectedOf rs sid).isSome = true) ∧
    (rs = [] → selectedOf rs sid = none) ∧
    ((∀ r ∈ rs, sid ≠ some r.id) → selectedOf rs sid = rs.head?) ∧
    ((fetchData st (Except.ok resp)).restaurants ≠ [] →
      ∃ x, (fetchData st (Except.ok resp)).restaurants.head? = some x ∧
        selectedOf (fetchData st (Except.ok resp)).restaurants
          (fetchData st (Except.ok resp)).selectedId = some x ∧
        ∀ r ∈ (fetchData st (Except.ok resp)).restaurants,
          r.buzz_score ≤ x.buzz_score) := by
  refine ⟨?_, ?_, ?_, ?_⟩
  · intro hne
    cases hf : rs.find? (fun r => decide (sid = some r.id)) with
    | some r => simp [selectedOf, hf, Option.orElse]
    | none =>
      cases rs with
      | nil => exact absurd rfl hne
      | cons x t => simp [selectedOf, hf, Option.orElse]
  · rintro rfl; rfl
  · intro hnone
    have hf : rs.find? (fun r => decide (sid = some r.id)) = none := by
      rw [List.find?_eq_none]
      intro r hr
      simpa using hnone r hr
    cases rs with
    | nil => rfl
    | cons x t => simp [selectedOf, hf, Option.orElse]
  · intro hne
    rw [fetchData_ok_restaurants] at hne ⊢
    rw [fetchData_ok_selectedId]
    have hs : (sortByBuzzDesc resp.restaurants).Sorted buzzGe :=
      List.sorted_insertionSort buzzGe resp.restaurants
    revert hne hs
    cases sortByBuzzDesc resp.restaurants with
    | nil => intro hne _; exact absurd rfl hne
    | cons x t =>
      intro _ hs
      refine ⟨x, rfl, ?_, ?_⟩
      · simp [selectedOf, Option.orElse, List.find?_cons]
      · intro r hr
        rcases List.mem_cons.mp hr with h | h
        · exact le_of_eq (congrArg Restaurant.buzz_score h)
        · exact List.rel_of_sorted_cons hs r h

/-- Concrete restaurant for the C9 witness. -/
def rSel : Restaurant :=
  ⟨"bar-isabel", "Bar Isabel", 4, 7, 3, "late night tapas", none, none⟩

/-- Witness for C9 at concrete inputs: a one-element list with no matching
id, the empty list, and a concrete successful fetch. -/
theorem C9_witness :
    (selectedOf [rSel] none).isSome = true ∧
    selectedOf [] none = none ∧
    selectedOf [rSel] none = [rSel].head? ∧
    (∃ x, (fetchData ⟨[], none, none, true, none⟩
        (Except.ok ⟨"2024-05-01", [rSel]⟩)).restaurants.head? = some x ∧
      selectedOf (fetchData ⟨[], none, none, true, none⟩
          (Except.ok ⟨"2024-05-01", [rSel]⟩)).restaurants
        (fetchData ⟨[], none, none, true, none⟩
          (Except.ok ⟨"2024-05-01", [rSel]⟩)).selectedId = some x ∧
      ∀ r ∈ (fetchData ⟨[], none, none, true, none⟩
          (Except.ok ⟨"2024-05-01", [rSel]⟩)).restaurants,
        r.buzz_score ≤ x.buzz_score) :=
  have h := C9_selection_invariant [rSel] none ⟨[], none, none, true, none⟩
    ⟨"2024-05-01", [rSel]⟩
  ⟨h.1 (by simp), (C9_selection_invariant [] none ⟨[], none, none, true, none⟩
      ⟨"2024-05-01", [rSel]⟩).2.1 rfl,
    h.2.2.1 (by intro r hr; simp), h.2.2.2 (by simp [fetchData_ok_restaurants]; decide)⟩

/-- C10: on a failed fetch the client keeps its restaurant list, selection
and last-run date unchanged, sets the fixed error message, and in every
outcome ends with the loading flag false; `fetchData` is total, so no
exception escapes it. -/
theorem C10_fetch_failure_degrades (st : AppState)
    (result : Except Unit DataResponse) :
    (fetchData st (Except.error ())).restaurants = st.restaurants ∧
    (fetchData st (Except.error ())).selectedId = st.selectedId ∧
    (fetchData st (Except.error ())).lastRun = st.lastRun ∧
    (fetchData st (Except.error ())).error = some fetchErrorMessage ∧
    (fetchData st result).isLoading = false := by
  refine ⟨rfl, rfl, rfl, rfl, ?_⟩
  cases result <;> rfl

/-- C5: publication is atomic and fail-safe — every live-key value a reader
can observe during a publication is either the previous snapshot value or
the complete new snapshot (never a partial artifact); a failed write
returns failure and leaves the store exactly as it was, so the previous
snapshot remains live; a successful publish ends with the full new
snapshot live. -/
theorem C5_publish_atomic (st : Store) (s : Snapshot) (ok : Bool)
    (obs : Option Snapshot) (hobs : obs ∈ publishObservedLive st s ok) :
    (obs = st.live ∨ obs = some s) ∧
    (publish st s false).1 = st ∧
    (publish st s false).2 = false ∧
    (publish st s true).1.live = some s := by
  refine ⟨?_, rfl, rfl, rfl⟩
  cases ok with
  | false =>
    simp [publishObservedLive] at hobs
    exact Or.inl hobs
  | true =>
    simp [publishObservedLive, writeTempStep, finalizeStep] at hobs
    rcases hobs with h | h
    · exact Or.inl h
    · exact Or.inr h

/-- Concrete store and snapshot for the C5 witness. -/
def storeW : Store := ⟨none, none⟩

/-- Concrete snapshot for the C5 witness. -/
def snapW : Snapshot := ⟨"2024-05-01T12:00:00Z", []⟩

/-- Witness for C5: the first observed live value of a successful publish
into an empty store. -/
theorem C5_witness :
    ((none : Option Snapshot) = storeW.live ∨
      (none : Option Snapshot) = some snapW) ∧
    (publish storeW snapW false).1 = storeW ∧
    (publish storeW snapW false).2 = false ∧
    (publish storeW snapW true).1.live = some snapW :=
  C5_publish_atomic storeW snapW true none (by simp [publishObservedLive, storeW])

/-- C8: the (spec-modelled) geocode cache round-trip — a name missing from
the cache costs exactly one external call, and looking the same name up
against the updated cache returns the identical location (a cached null
included) with zero further external calls, leaving the cache unchanged. -/
theorem C8_geocode_cache_roundtrip (cache : GeoCache)
    (provider : String → Option Location) (nm : String)
    (hmiss : cacheLookup cache nm = none) :
    (geocode cache provider nm).2.2 = 1 ∧
    geocode (geocode cache provider nm).2.1 provider nm =
      ((geocode cache provider nm).1, (geocode cache provider nm).2.1, 0) := by
  have h1 : geocode cache provider nm
      = (provider nm, (nm, provider nm) :: cache, 1) := by
    simp [geocode, hmiss]
  constructor
  · rw [h1]
  · rw [h1]
    simp [geocode, cacheLookup, List.find?_cons]

/-- Witness for C8: an empty cache and a provider that finds nothing — the
cached-null case; the external call count is 1 and the second lookup
returns the identical (null) location with zero further calls. -/
theorem C8_witness :
    (geocode [] (fun _ => none) "alo").2.2 = 1 ∧
    geocode (geocode [] (fun _ => none) "alo").2.1 (fun _ => none) "alo" =
      ((geocode [] (fun _ => none) "alo").1,
        (geocode [] (fun _ => none) "alo").2.1, 0) :=
  C8_geocode_cache_roundtrip [] (fun _ => none) "alo" rfl

/-- The three §8 example names, as character lists. -/
def aloName : List Char := ['A', 'l', 'o']

/-- `"ALO Restaurant"` as a character list. -/
def aloRestaurantName : List Char :=
  ['A', 'L', 'O', Char.ofNat 32, 'R', 'e', 's', 't', 'a', 'u', 'r', 'a', 'n', 't']

/-- `"Alobar"` as a character list. -/
def alobarName : List Char := ['A', 'l', 'o', 'b', 'a', 'r']

/-- C6: the (spec-modelled) resolver groups `"Alo"` and `"ALO Restaurant"`
into one identity and keeps `"Alobar"` distinct: the word-level substring
test matches `alo` inside `alo restaurant` but not inside `alobar`. -/
theorem C6_alo_grouping :
    resolve [aloName, aloRestaurantName, alobarName] =
      [(aloName, [aloName, aloRestaurantName]), (alobarName, [alobarName])] ∧
    canonicals (resolve [aloName, aloRestaurantName, alobarName]) =
      [aloName, alobarName] := by
  decide

/-- Names the (spec-modelled) matcher keeps apart. -/
def noMatch (a b : List Char) : Prop := matchesB a b = false

/-- The match test is symmetric in its failure: if `a` does not match `b`
then `b` does not match `a`. -/
theorem matchesB_false_symm {a b : List Char} (h : matchesB a b = false) :
    matchesB b a = false := by
  unfold matchesB at h ⊢
  rcases Bool.or_eq_false_iff.mp h with ⟨h1, h3⟩
  rcases Bool.or_eq_false_iff.mp h1 with ⟨hp, h2⟩
  rw [Bool.or_eq_false_iff, Bool.or_eq_false_iff]
  refine ⟨⟨?_, h3⟩, h2⟩
  simp only [decide_eq_false_iff_not] at hp ⊢
  exact fun e => hp e.symm

/-- `addName` preserves pairwise non-matching of the canonical names: a new
canonical is introduced only when it matches none of the existing ones, and
otherwise the canonical set is unchanged. -/
theorem canonicals_addName_pairwise
    (groups : List (List Char × List (List Char))) (n : List Char)
    (h : (canonicals groups).Pairwise noMatch) :
    (canonicals (addName groups n)).Pairwise noMatch := by
  unfold addName
  split
  next hfil =>
    have hall : ∀ g ∈ groups, matchesB n g.fst = false := by
      intro g hg
      have hng := List.filter_eq_nil_iff.mp hfil g hg
      simpa using hng
    rw [show canonicals (groups ++ [(n, [n])]) = canonicals groups ++ [n] by
      simp [canonicals]]
    rw [List.pairwise_append]
    refine ⟨h, List.pairwise_singleton _ _, ?_⟩
    intro a ha b hb
    rw [List.mem_singleton] at hb
    subst hb
    obtain ⟨g, hg, rfl⟩ := List.mem_map.mp ha
    exact matchesB_false_symm (hall g hg)
  next c cs hfil =>
    have hc : canonicals (groups.map fun g =>
        if g.fst = (bestCand c cs).fst then (g.fst, g.snd ++ [n]) else g)
        = canonicals groups := by
      simp only [canonicals, List.map_map]
      apply List.map_congr_left
      intro g hg
      simp only [Function.comp_apply]
      split <;> rfl
    rw [hc]
    exact h

/-- Folding `addName` preserves the pairwise non-matching invariant of the
accumulated canonical names. -/
theorem foldl_addName_pairwise (ns : List (List Char)) :
    ∀ groups, (canonicals groups).Pairwise noMatch →
      (canonicals (ns.foldl addName groups)).Pairwise noMatch := by
  induction ns with
  | nil => intro groups h; exact h
  | cons n ns ih =>
    intro groups h
    exact ih (addName groups n) (canonicals_addName_pairwise groups n h)

/-- The canonical names produced by `resolve` are pairwise non-matching. -/
theorem resolve_canonicals_pairwise (ns : List (List Char)) :
    (canonicals (resolve ns)).Pairwise noMatch :=
  foldl_addName_pairwise ns [] List.Pairwise.nil

/-- Folding `addName` over pairwise non-matching names, starting from their
singleton groups for `pre`, only ever founds fresh singleton groups. -/
theorem foldl_addName_of_noMatch (cs : List (List Char)) :
    ∀ pre : List (List Char), cs.Pairwise noMatch →
      (∀ c ∈ cs, ∀ p ∈ pre, matchesB c p = false) →
      cs.foldl addName (pre.map fun c => (c, [c])) =
        (pre ++ cs).map fun c => (c, [c]) := by
  induction cs with
  | nil => intro pre _ _; simp
  | cons c cs ih =>
    intro pre hpw hpre
    have hfil : (pre.map fun c0 => (c0, [c0])).filter
        (fun g => matchesB c g.fst) = [] := by
      rw [List.filter_eq_nil_iff]
      intro g hg
      obtain ⟨p, hp, rfl⟩ := List.mem_map.mp hg
      simp [hpre c (List.mem_cons_self c cs) p hp]
    have hstep : addName (pre.map fun c0 => (c0, [c0])) c
        = (pre ++ [c]).map fun c0 => (c0, [c0]) := by
      unfold addName
      rw [hfil]
      simp
    have h1 : cs.Pairwise noMatch := (List.pairwise_cons.mp hpw).2
    have h2 : ∀ c' ∈ cs, ∀ p ∈ pre ++ [c], matchesB c' p = false := by
      intro c' hc' p hp
      rcases List.mem_append.mp hp with hp | hp
      · exact hpre c' (List.mem_cons_of_mem c hc') p hp
      · rw [List.mem_singleton] at hp
        subst hp
        exact matchesB_false_symm ((List.pairwise_cons.mp hpw).1 c' hc')
    rw [List.foldl_cons, hstep, ih (pre ++ [c]) h1 h2]
    simp

/-- C7: the (spec-modelled) identity resolution is idempotent — resolving
the canonical names produced by a first resolution gives every canonical
its own (singleton) group, and in particular leaves the set of canonical
names, hence the grouping, unchanged. -/
theorem C7_resolve_idempotent (ns : List (List Char)) :
    resolve (canonicals (resolve ns)) =
      (canonicals (resolve ns)).map (fun c => (c, [c])) ∧
    canonicals (resolve (canonicals (resolve ns))) = canonicals (resolve ns) := by
  have hpw := resolve_canonicals_pairwise ns
  have h1 := foldl_addName_of_noMatch (canonicals (resolve ns)) [] hpw
    (by intro c _ p hp; cases hp)
  have h2 : resolve (canonicals (resolve ns)) =
      (canonicals (resolve ns)).map (fun c => (c, [c])) := by
    simpa [resolve] using h1
  refine ⟨h2, ?_⟩
  rw [h2]
  simp [canonicals, List.map_map]
